import Mathlib

/-!
Verification development for the process-spawning primitive in
Sources/CShim/exec_command.c (with its header) and
vminitd/Sources/LCShim/syscall2.c.

The descriptor table of a process is modelled as a partial map from
descriptor numbers to entries; an entry records the identity of the open
resource the descriptor refers to and its close-on-exec flag.  The
operations dup2, close and fcntl(F_SETFD) are modelled with their POSIX
semantics.  The child-side renumbering phase of child_handler
(exec_command.c lines 133-215) is translated loop by loop; the parent
side of exec_command (lines 251-325) is translated as a function over an
oracle recording the outcome of each system call the parent makes.
-/

/-- One open descriptor: the identity of the resource it refers to and
its close-on-exec flag. -/
structure Entry where
  res : Nat
  cloexec : Bool
deriving DecidableEq, Repr

/-- A descriptor table: descriptor numbers to entries, none when closed. -/
def FdState : Type := Nat → Option Entry

/-- POSIX dup2(oldfd, newfd): fails when oldfd is closed; when
oldfd = newfd it does nothing; otherwise newfd becomes a copy of oldfd
with the close-on-exec flag cleared (silently closing what was at newfd). -/
def FdState.dup2 (st : FdState) (oldfd newfd : Nat) : Option FdState :=
  match st oldfd with
  | none => none
  | some e =>
    if oldfd = newfd then some st
    else some (fun fd => if fd = newfd then some ⟨e.res, false⟩ else st fd)

/-- POSIX close(fd): fails (EBADF) when fd is closed. -/
def FdState.close (st : FdState) (fd : Nat) : Option FdState :=
  match st fd with
  | none => none
  | some _ => some (fun f => if f = fd then none else st f)

/-- fcntl(fd, F_SETFD, c): sets the close-on-exec flag of fd, failing
(EBADF) when fd is closed. -/
def FdState.setfd (st : FdState) (fd : Nat) (c : Bool) : Option FdState :=
  match st fd with
  | none => none
  | some e => some (fun f => if f = fd then some ⟨e.res, c⟩ else st f)

/-- Lines 133-142 of exec_command.c: fd_index starts at 0 and is raised
to every file handle that exceeds it, so it ends at the maximum of 0 and
the listed handles. -/
def maxFd (l : List Nat) : Nat := l.foldl max 0

/-- Lines 144-152: if the sync descriptor is not already the target
value (one plus the maximum source), dup2 it there, close the original
and continue with the new number. -/
def relocate (st : FdState) (syncfd t : Nat) : Option (FdState × Nat) :=
  if syncfd ≠ t then
    (st.dup2 syncfd t).bind (fun st1 =>
      (st1.close syncfd).map (fun st2 => (st2, t)))
  else some (st, syncfd)

/-- Lines 144-158: relocation of the sync descriptor followed by
fcntl(syncfd, F_SETFD, FD_CLOEXEC) on the (possibly moved) descriptor. -/
def syncRelocatePhase (st : FdState) (sources : List Nat) (syncfd : Nat) :
    Option (FdState × Nat) :=
  (relocate st syncfd (maxFd sources + 1)).bind (fun p =>
    (p.1.setfd p.2 true).map (fun st2 => (st2, p.2)))

/-- Lines 160-173: walk the fd table at positions i, i+1, ...; every
entry whose value differs from its position is dup2-ed to the next fresh
number f, marked close-on-exec, and the table is updated; f increases
only when a duplication happens.  Returns the state, the new table and
the next fresh number. -/
def liftLoop : FdState → List Nat → Nat → Nat → Option (FdState × List Nat × Nat)
  | st, [], _, f => some (st, [], f)
  | st, v :: rest, i, f =>
    if v = i then
      (liftLoop st rest (i + 1) f).map (fun r => (r.1, v :: r.2.1, r.2.2))
    else
      (st.dup2 v f).bind (fun st1 =>
        (st1.setfd f true).bind (fun st2 =>
          (liftLoop st2 rest (i + 1) (f + 1)).map
            (fun r => (r.1, f :: r.2.1, r.2.2))))

/-- Lines 176-187: every table entry that still differs from its
position is dup2-ed onto the position itself, and the close-on-exec flag
of the position is cleared unconditionally. -/
def placeLoop : FdState → List Nat → Nat → Option FdState
  | st, [], _ => some st
  | st, v :: rest, i =>
    (if v ≠ i then st.dup2 v i else some st).bind (fun st1 =>
      (st1.setfd i false).bind (fun st2 => placeLoop st2 rest (i + 1)))

/-- The whole descriptor shuffle of child_handler (lines 133-187):
relocate and protect the sync descriptor, lift the table entries above
it, then place them onto their positions.  Returns the final table and
the (possibly relocated) sync descriptor number. -/
def childFdShuffle (st : FdState) (sources : List Nat) (syncfd : Nat) :
    Option (FdState × Nat) :=
  (syncRelocatePhase st sources syncfd).bind (fun p =>
    (liftLoop p.1 sources 0 (maxFd sources + 2)).bind (fun q =>
      (placeLoop q.1 q.2.1 0).map (fun st3 => (st3, p.2))))

/-- One step of the loop at lines 211-215: fcntl(i, F_SETFD, FD_CLOEXEC)
with EBADF ignored, i.e. a closed descriptor is left closed and an open
one gets its close-on-exec flag set. -/
def setCloexecIfOpen (st : FdState) (fd : Nat) : FdState :=
  fun f =>
    if f = fd then
      match st fd with
      | none => none
      | some e => some ⟨e.res, true⟩
    else st f

/-- Lines 211-215: for (i = start; count iterations; i++) mark i
close-on-exec when open. -/
def cloexecFromCount : FdState → Nat → Nat → FdState
  | st, _, 0 => st
  | st, i, k + 1 => cloexecFromCount (setCloexecIfOpen st i) (i + 1) k

/-- The descriptor-table effect of child_handler from line 133 to line
215: the shuffle followed by the close-on-exec sweep from
file_handle_count up to the current RLIMIT_NOFILE soft limit inclusive.
The intervening setsid/setpgid/ioctl(TIOCSCTTY) steps (lines 189-204)
never modify the descriptor table and are omitted from this state. -/
def childFdFinal (st : FdState) (sources : List Nat) (syncfd rlimCur : Nat) :
    Option (FdState × Nat) :=
  (childFdShuffle st sources syncfd).map (fun p =>
    (cloexecFromCount p.1 sources.length (rlimCur + 1 - sources.length), p.2))

/-- struct exec_command_attrs, from include/exec_command.h.  The C
fields are plain ints (uid_t/gid_t hold the -1 sentinel written by the
initializer), modelled as integers. -/
structure exec_command_attrs where
  setpgid : Int
  pgid : Int
  setctty : Int
  ctty : Int
  setsid : Int
  uid : Int
  gid : Int
  mask : Int
deriving DecidableEq, Repr

/-- exec_command_attrs_init, lines 35-44 of exec_command.c, field for
field: setpgid 0, pgid 0, setsid 0, setctty 0, ctty 0, mask 0,
uid -1, gid -1. -/
def exec_command_attrs_init : exec_command_attrs :=
  ⟨0, 0, 0, 0, 0, -1, -1, 0⟩

/-- Replace only the mask field of an attribute record. -/
def setMaskField (a : exec_command_attrs) (m : Int) : exec_command_attrs :=
  ⟨a.setpgid, a.pgid, a.setctty, a.ctty, a.setsid, a.uid, a.gid, m⟩

/-- A signal mask as a predicate on signal numbers. -/
def SigMask : Type := Nat → Bool

/-- sigfillset. -/
def sigfillset : SigMask := fun _ => true

/-- sigemptyset. -/
def sigemptyset : SigMask := fun _ => false

/-- The signal-related state of the child between fork and exec. -/
structure ChildSigState where
  blockedMask : SigMask
  dispositionsDefault : Bool

/-- Lines 71-83 of exec_command.c: every disposition is reset to
SIG_DFL, then pthread_sigmask(SIG_SETMASK, sigemptyset, NULL) installs
the empty blocked mask.  The attribute record (including its mask field)
is in scope but not consulted. -/
def childSignalPhase (_attrs : exec_command_attrs) (_s : ChildSigState) :
    ChildSigState :=
  ⟨sigemptyset, true⟩

/-- Lines 245-246: while (write(syncfd, and err, sizeof(err)) < 0);
given the successive return values of write, the loop runs while they
are negative; none means the trace ended with the loop still running. -/
def writeRetry : List Int → Option Int
  | [] => none
  | r :: rest => if r < 0 then writeRetry rest else some r

/-- Outcome of the child failure handler when it terminates: whether the
fd table allocation was released, the errno value written to the sync
descriptor (none when errno was 0 and no write happened), and the exit
status. -/
structure FailOutcome where
  freed : Bool
  wrote : Option Int
  exitStatus : Nat
deriving DecidableEq, Repr

/-- Lines 238-248 of exec_command.c (the fail label): free the table if
it was allocated, capture errno, and when it is nonzero repeat the
4-byte write while it returns a negative value, then exit(127).  The
result is none when the write trace ends with the loop still running. -/
def childFailHandler (alloc : Bool) (errno : Int) (trace : List Int) :
    Option FailOutcome :=
  if errno = 0 then some ⟨alloc, none, 127⟩
  else
    match writeRetry trace with
    | none => none
    | some _ => some ⟨alloc, some errno, 127⟩

/-- Outcome of the single read on the sync pipe in the parent: either
fewer than sizeof(int) bytes arrived (EOF, short read or read error) or
exactly 4 bytes carrying the value v. -/
inductive ReadOutcome
  | notFull
  | full (v : Int)
deriving DecidableEq, Repr

/-- Oracle for the system calls the parent side of exec_command makes:
whether pipe(2) succeeds, whether the pthread_sigmask save succeeds, the
fork result (none is -1), whether the two close(2) calls succeed, and
the read outcome. -/
structure Oracle where
  pipeOk : Bool
  sigmaskSaveOk : Bool
  forkPid : Option Nat
  closeWriteOk : Bool
  closeReadOk : Bool
  readOutcome : ReadOutcome

/-- Observable outcome of one exec_command call in the parent: the
return value, whether and with what the out-parameter result was
assigned, the final signal mask of the calling thread, whether waitpid
was called, whether each pipe end got closed, and the err value live at
the return (the error code the failure carries). -/
structure ExecResult where
  ret : Int
  resultOut : Option Nat
  finalMask : SigMask
  reaped : Bool
  readEndClosed : Bool
  writeEndClosed : Bool
  errCarried : Int

/-- exec_command, lines 251-325, parent side, as a function of the
syscall oracle, the mask of the calling thread at entry, and the value
the uninitialized stack variable old_mask happens to hold.  Each branch
mirrors one exit path of the C control flow:
pipe failure (line 263) and sigmask-save failure (line 267) jump to fail
with err still 0 and old_mask never written, so the restore at line 317
installs the uninitialized value and the function returns 0;
fork failure (lines 272-276) closes both pipe ends and jumps to fail
with err still 0, restoring the saved mask and returning 0;
otherwise the parent closes the write end (line 286), reads (line 292),
on a full 4-byte read records the value and calls waitpid (lines
297-305), closes the read end (line 307, jumping to fail on failure with
err as currently set), and finally assigns the out-parameter and returns
0 when err is 0, or returns -1 carrying err. -/
def exec_command (o : Oracle) (callerMask uninitMask : SigMask) : ExecResult :=
  if o.pipeOk = false then
    ⟨0, none, uninitMask, false, false, false, 0⟩
  else if o.sigmaskSaveOk = false then
    ⟨0, none, uninitMask, false, false, false, 0⟩
  else
    match o.forkPid with
    | none => ⟨0, none, callerMask, false, true, true, 0⟩
    | some pid =>
      if o.closeWriteOk = false then
        ⟨0, none, callerMask, false, false, false, 0⟩
      else
        match o.readOutcome with
        | .notFull =>
          if o.closeReadOk = false then
            ⟨0, none, callerMask, false, false, true, 0⟩
          else
            ⟨0, some pid, callerMask, false, true, true, 0⟩
        | .full v =>
          if o.closeReadOk = false then
            ⟨if v = 0 then 0 else -1, none, callerMask, true, false, true, v⟩
          else if v = 0 then
            ⟨0, some pid, callerMask, true, true, true, 0⟩
          else
            ⟨-1, none, callerMask, true, true, true, v⟩

/-- syscall2 from vminitd/Sources/LCShim/syscall2.c: a raw two-argument
syscall pass-through modelled as application of the ambient syscall
interpretation. -/
def syscall2 (sys : Int → Int → Int → Int) (number a1 a2 : Int) : Int :=
  sys number a1 a2

/-- Concrete descriptor table for the C1 witness: descriptors 0, 2 and 5
open, 5 being the sync pipe. -/
def stW1 : FdState := fun fd =>
  if fd = 0 then some ⟨100, true⟩
  else if fd = 2 then some ⟨102, false⟩
  else if fd = 5 then some ⟨105, false⟩
  else none

/-- Concrete descriptor table for C3: descriptor 1 open on an unrelated
resource, descriptor 5 is the sync pipe. -/
def stW3 : FdState := fun fd =>
  if fd = 1 then some ⟨10, false⟩
  else if fd = 5 then some ⟨99, false⟩
  else none

/-- Concrete descriptor table for C8: descriptor 3 is the single source,
descriptor 10 is the sync pipe, already beyond max+1 = 4. -/
def stW8 : FdState := fun fd =>
  if fd = 3 then some ⟨30, false⟩
  else if fd = 10 then some ⟨110, false⟩
  else none

/-- Oracle with a failing pipe(2). -/
def oPipeFail : Oracle := ⟨false, true, some 7, true, true, .notFull⟩

/-- Oracle with a failing fork(2). -/
def oForkFail : Oracle := ⟨true, true, none, true, true, .notFull⟩

/-- Oracle for a successful spawn: everything works and the child
reaches execve, so the parent sees EOF on the pipe. -/
def oSpawnOk : Oracle := ⟨true, true, some 7, true, true, .notFull⟩

/-- Oracle for a child-reported failure: the parent reads the 4-byte
code 9 from the pipe. -/
def oChildErr : Oracle := ⟨true, true, some 7, true, true, .full 9⟩

/-- A caller mask with no signal blocked. -/
def maskNone : SigMask := fun _ => false

/-- An arbitrary nonempty mask standing for the indeterminate bytes of
the uninitialized old_mask stack variable. -/
def maskGarbage : SigMask := fun _ => true

/-! Helper lemmas. -/

theorem foldl_max_ge_init (l : List Nat) (a : Nat) : a ≤ l.foldl max a := by
  induction l generalizing a with
  | nil => exact le_refl a
  | cons x t ih => exact le_trans (le_max_left a x) (ih (max a x))

theorem le_maxFd {v : Nat} {l : List Nat} (h : v ∈ l) : v ≤ maxFd l := by
  unfold maxFd
  generalize (0 : Nat) = a
  induction l generalizing a with
  | nil => cases h
  | cons x t ih =>
    rw [List.foldl_cons]
    rcases List.mem_cons.mp h with h1 | h1
    · subst h1
      exact le_trans (le_max_right a v) (foldl_max_ge_init t (max a v))
    · exact ih h1 (max a x)

theorem get?_some_lt {α : Type} {l : List α} {j : Nat} {a : α}
    (h : l.get? j = some a) : j < l.length :=
  (List.get?_eq_some.mp h).1

theorem lt_get?_some {α : Type} {l : List α} {j : Nat}
    (h : j < l.length) : ∃ a, l.get? j = some a :=
  ⟨l.get ⟨j, h⟩, List.get?_eq_get h⟩

theorem dup2_eq {st : FdState} {oldfd newfd : Nat} {e : Entry}
    (he : st oldfd = some e) (hne : oldfd ≠ newfd) :
    st.dup2 oldfd newfd =
      some (fun fd => if fd = newfd then some ⟨e.res, false⟩ else st fd) := by
  simp [FdState.dup2, he, hne]

theorem close_eq {st : FdState} {fd : Nat} {e : Entry} (he : st fd = some e) :
    st.close fd = some (fun f => if f = fd then none else st f) := by
  simp [FdState.close, he]

theorem setfd_eq {st : FdState} {fd : Nat} {c : Bool} {r : Nat} {b : Bool}
    (he : st fd = some ⟨r, b⟩) :
    st.setfd fd c = some (fun f => if f = fd then some ⟨r, c⟩ else st f) := by
  simp [FdState.setfd, he]

theorem cloexecFromCount_lt :
    ∀ (k : Nat) (st : FdState) (i fd : Nat), fd < i →
      cloexecFromCount st i k fd = st fd := by
  intro k
  induction k with
  | zero => intro st i fd _; rfl
  | succ k ih =>
    intro st i fd hfd
    show cloexecFromCount (setCloexecIfOpen st i) (i + 1) k fd = st fd
    rw [ih (setCloexecIfOpen st i) (i + 1) fd (by omega)]
    simp [setCloexecIfOpen]
    intro h
    omega

theorem cloexecFromCount_ge :
    ∀ (k : Nat) (st : FdState) (i fd : Nat), i + k ≤ fd →
      cloexecFromCount st i k fd = st fd := by
  intro k
  induction k with
  | zero => intro st i fd _; rfl
  | succ k ih =>
    intro st i fd hfd
    show cloexecFromCount (setCloexecIfOpen st i) (i + 1) k fd = st fd
    rw [ih (setCloexecIfOpen st i) (i + 1) fd (by omega)]
    simp [setCloexecIfOpen]
    intro h
    omega

theorem cloexecFromCount_cloexec :
    ∀ (k : Nat) (st : FdState) (i fd : Nat) (e : Entry), i ≤ fd → fd < i + k →
      cloexecFromCount st i k fd = some e → e.cloexec = true := by
  intro k
  induction k with
  | zero => intro st i fd e h1 h2; omega
  | succ k ih =>
    intro st i fd e h1 h2 hsome
    by_cases hfd : fd = i
    · subst hfd
      rw [show cloexecFromCount st fd (k + 1) =
            cloexecFromCount (setCloexecIfOpen st fd) (fd + 1) k from rfl,
          cloexecFromCount_lt k (setCloexecIfOpen st fd) (fd + 1) fd (by omega)]
        at hsome
      simp only [setCloexecIfOpen, if_pos rfl] at hsome
      cases hst : st fd with
      | none => rw [hst] at hsome; cases hsome
      | some e0 =>
        rw [hst] at hsome
        cases hsome
        rfl
    · exact ih (setCloexecIfOpen st i) (i + 1) fd e (by omega) (by omega) hsome

theorem syncRelocatePhase_spec (st : FdState) (sources : List Nat) (syncfd : Nat)
    (e : Entry) (hsync : st syncfd = some e) :
    ∃ st2, syncRelocatePhase st sources syncfd = some (st2, maxFd sources + 1) ∧
      st2 (maxFd sources + 1) = some ⟨e.res, true⟩ ∧
      (syncfd ≠ maxFd sources + 1 → st2 syncfd = none) ∧
      (∀ fd, fd ≠ syncfd → fd ≠ maxFd sources + 1 → st2 fd = st fd) := by
  unfold syncRelocatePhase
  generalize maxFd sources + 1 = t
  by_cases h : syncfd = t
  · subst h
    have hst : st.setfd syncfd true =
        some (fun f => if f = syncfd then some ⟨e.res, true⟩ else st f) :=
      setfd_eq hsync
    refine ⟨fun f => if f = syncfd then some ⟨e.res, true⟩ else st f, ?_, ?_, ?_, ?_⟩
    · rw [show relocate st syncfd syncfd = some (st, syncfd) from by simp [relocate]]
      show (st.setfd syncfd true).map _ = _
      rw [hst]
      rfl
    · simp
    · intro hne
      exact absurd rfl hne
    · intro fd h1 _
      simp [h1]
  · have hd : st.dup2 syncfd t =
        some (fun fd => if fd = t then some ⟨e.res, false⟩ else st fd) :=
      dup2_eq hsync h
    set stA : FdState := fun fd => if fd = t then some ⟨e.res, false⟩ else st fd
      with hAdef
    have hAs : stA syncfd = some e := by rw [hAdef]; simp [h, hsync]
    have hc : stA.close syncfd =
        some (fun f => if f = syncfd then none else stA f) := close_eq hAs
    set stB : FdState := fun f => if f = syncfd then none else stA f with hBdef
    have hts : t ≠ syncfd := fun hh => h hh.symm
    have hBt : stB t = some ⟨e.res, false⟩ := by rw [hBdef]; simp [hts]; rw [hAdef]; simp
    have hs : stB.setfd t true =
        some (fun f => if f = t then some ⟨e.res, true⟩ else stB f) := setfd_eq hBt
    refine ⟨fun f => if f = t then some ⟨e.res, true⟩ else stB f, ?_, ?_, ?_, ?_⟩
    · rw [show relocate st syncfd t =
          some (stB, t) from by
            unfold relocate
            rw [if_pos h, hd]
            show (stA.close syncfd).map _ = _
            rw [hc]
            rfl]
      show (stB.setfd t true).map _ = _
      rw [hs]
      rfl
    · simp
    · intro _
      simp [h, hBdef]
    · intro fd h1 h2
      simp [h1, h2, hBdef, hAdef]

theorem placeStep (st : FdState) (v i : Nat) (e : Entry)
    (he : st v = some e) (hvi : i ≤ v) :
    ∃ stA, (∀ rest, placeLoop st (v :: rest) i = placeLoop stA rest (i + 1)) ∧
      stA i = some ⟨e.res, false⟩ ∧ (∀ fd, fd ≠ i → stA fd = st fd) := by
  by_cases hv : v = i
  · subst hv
    have hset : st.setfd v false =
        some (fun f => if f = v then some ⟨e.res, false⟩ else st f) := setfd_eq he
    refine ⟨fun f => if f = v then some ⟨e.res, false⟩ else st f, ?_, by simp, ?_⟩
    · intro rest
      show ((if v ≠ v then st.dup2 v v else some st).bind _) = _
      rw [if_neg (by simp)]
      show (st.setfd v false).bind _ = _
      rw [hset]
      rfl
    · intro fd h1
      simp [h1]
  · have hd : st.dup2 v i =
        some (fun fd => if fd = i then some ⟨e.res, false⟩ else st fd) :=
      dup2_eq he hv
    set stA : FdState := fun fd => if fd = i then some ⟨e.res, false⟩ else st fd
      with hAdef
    have hAi : stA i = some ⟨e.res, false⟩ := by rw [hAdef]; simp
    have hset : stA.setfd i false =
        some (fun f => if f = i then some ⟨e.res, false⟩ else stA f) := setfd_eq hAi
    refine ⟨fun f => if f = i then some ⟨e.res, false⟩ else stA f, ?_, by simp, ?_⟩
    · intro rest
      show ((if v ≠ i then st.dup2 v i else some st).bind _) = _
      rw [if_pos hv, hd]
      show (stA.setfd i false).bind _ = _
      rw [hset]
      rfl
    · intro fd h1
      simp [h1, hAdef]

theorem placeLoop_spec :
    ∀ (table : List Nat) (st : FdState) (i : Nat),
      (∀ j v, table.get? j = some v → i + j ≤ v) →
      (∀ j v, table.get? j = some v → (st v).isSome = true) →
      ∃ st2, placeLoop st table i = some st2 ∧
        (∀ fd, fd < i → st2 fd = st fd) ∧
        (∀ fd, i + table.length ≤ fd → st2 fd = st fd) ∧
        (∀ j v e, table.get? j = some v → st v = some e →
          st2 (i + j) = some ⟨e.res, false⟩) := by
  intro table
  induction table with
  | nil =>
    intro st i _ _
    exact ⟨st, rfl, fun _ _ => rfl, fun _ _ => rfl, fun j v e hj _ => by simp at hj⟩
  | cons v rest ih =>
    intro st i hpos hopen
    have h0 : i ≤ v := by have := hpos 0 v rfl; omega
    obtain ⟨e, he⟩ := Option.isSome_iff_exists.mp (hopen 0 v rfl)
    obtain ⟨stA, hAeq, hAi, hAfr⟩ := placeStep st v i e he h0
    have hpos2 : ∀ j w, rest.get? j = some w → (i + 1) + j ≤ w := by
      intro j w hj
      have := hpos (j + 1) w hj
      omega
    have hopen2 : ∀ j w, rest.get? j = some w → (stA w).isSome = true := by
      intro j w hj
      have hne : w ≠ i := by have := hpos2 j w hj; omega
      rw [hAfr w hne]
      exact hopen (j + 1) w hj
    obtain ⟨st2, heq, hlow, hhigh, htgt⟩ := ih stA (i + 1) hpos2 hopen2
    refine ⟨st2, by rw [hAeq rest]; exact heq, ?_, ?_, ?_⟩
    · intro fd hfd
      rw [hlow fd (by omega), hAfr fd (by omega)]
    · intro fd hfd
      have hl : (i + 1) + rest.length ≤ fd := by
        simp [List.length_cons] at hfd
        omega
      rw [hhigh fd hl, hAfr fd (by omega)]
    · intro j w e2 hj hw
      cases j with
      | zero =>
        have hwv : v = w := Option.some.inj (by rw [List.get?_cons_zero] at hj; exact hj)
        have he2 : e2 = e := by
          rw [← hwv] at hw
          rw [he] at hw
          exact (Option.some.inj hw).symm
        rw [show i + 0 = i from rfl, hlow i (by omega), hAi, he2]
      | succ j =>
        have hj' : rest.get? j = some w := hj
        have hne : w ≠ i := by have := hpos2 j w hj'; omega
        have := htgt j w e2 hj' (by rw [hAfr w hne]; exact hw)
        rw [show i + (j + 1) = (i + 1) + j by omega]
        exact this

theorem liftLoop_spec :
    ∀ (table : List Nat) (st : FdState) (i f M : Nat),
      (∀ v, v ∈ table → v ≤ M) →
      (∀ v, v ∈ table → (st v).isSome = true) →
      M + 2 ≤ f → i + 1 ≤ f →
      ∃ st2 table2 f2,
        liftLoop st table i f = some (st2, table2, f2) ∧
        table2.length = table.length ∧
        f ≤ f2 ∧ f2 ≤ f + table.length ∧
        (∀ fd, fd < f → st2 fd = st fd) ∧
        (∀ fd, f2 ≤ fd → st2 fd = st fd) ∧
        (∀ j v, table.get? j = some v → ∃ v2, table2.get? j = some v2 ∧
          i + j ≤ v2 ∧
          ∀ e, st v = some e → ∃ e2, st2 v2 = some e2 ∧ e2.res = e.res) := by
  intro table
  induction table with
  | nil =>
    intro st i f M _ _ _ _
    refine ⟨st, [], f, rfl, rfl, le_refl f, by simp, fun _ _ => rfl, fun _ _ => rfl, ?_⟩
    intro j v hj
    simp at hj
  | cons v rest ih =>
    intro st i f M hv ho hfM hfi
    have hvM : v ≤ M := hv v (List.mem_cons_self v rest)
    obtain ⟨e, he⟩ := Option.isSome_iff_exists.mp (ho v (List.mem_cons_self v rest))
    by_cases hvi : v = i
    · obtain ⟨st2, t2, f2, heq, hlen, hle, hub, hlow, hhigh, hget⟩ :=
        ih st (i + 1) f M (fun w hw => hv w (List.mem_cons_of_mem v hw))
          (fun w hw => ho w (List.mem_cons_of_mem v hw)) hfM (by omega)
      refine ⟨st2, v :: t2, f2, ?_, by simp [hlen], hle,
        by simp [List.length_cons]; omega, hlow, hhigh, ?_⟩
      · show (if v = i then (liftLoop st rest (i + 1) f).map
            (fun r => (r.1, v :: r.2.1, r.2.2)) else _) = _
        rw [if_pos hvi, heq]
        rfl
      · intro j w hj
        cases j with
        | zero =>
          have hwv : v = w := Option.some.inj (by rw [List.get?_cons_zero] at hj; exact hj)
          refine ⟨v, List.get?_cons_zero, by omega, ?_⟩
          intro e0 he0
          refine ⟨e0, ?_, rfl⟩
          rw [hlow v (by omega), hwv]
          exact he0
        | succ j =>
          obtain ⟨v2, h1, h2, h3⟩ := hget j w hj
          exact ⟨v2, h1, by omega, h3⟩
    · have hvf : v ≠ f := by omega
      have hd : st.dup2 v f =
          some (fun fd => if fd = f then some ⟨e.res, false⟩ else st fd) :=
        dup2_eq he hvf
      set stA : FdState := fun fd => if fd = f then some ⟨e.res, false⟩ else st fd
        with hAdef
      have hAf : stA f = some ⟨e.res, false⟩ := by rw [hAdef]; simp
      have hs : stA.setfd f true =
          some (fun fd2 => if fd2 = f then some ⟨e.res, true⟩ else stA fd2) :=
        setfd_eq hAf
      set stB : FdState := fun fd2 => if fd2 = f then some ⟨e.res, true⟩ else stA fd2
        with hBdef
      have hBst : ∀ fd, fd ≠ f → stB fd = st fd := by
        intro fd h1
        simp [hBdef, hAdef, h1]
      have hBf : stB f = some ⟨e.res, true⟩ := by simp [hBdef]
      obtain ⟨st2, t2, f2, heq, hlen, hle, hub, hlow, hhigh, hget⟩ :=
        ih stB (i + 1) (f + 1) M (fun w hw => hv w (List.mem_cons_of_mem v hw))
          (fun w hw => by
            rw [hBst w (by have := hv w (List.mem_cons_of_mem v hw); omega)]
            exact ho w (List.mem_cons_of_mem v hw))
          (by omega) (by omega)
      refine ⟨st2, f :: t2, f2, ?_, by simp [hlen], by omega,
        by simp [List.length_cons]; omega, ?_, ?_, ?_⟩
      · show (if v = i then _ else (st.dup2 v f).bind
            (fun st1 => (st1.setfd f true).bind
              (fun stx => (liftLoop stx rest (i + 1) (f + 1)).map
                (fun r => (r.1, f :: r.2.1, r.2.2))))) = _
        rw [if_neg hvi, hd]
        show (stA.setfd f true).bind _ = _
        rw [hs]
        show (liftLoop stB rest (i + 1) (f + 1)).map _ = _
        rw [heq]
        rfl
      · intro fd hfd
        rw [hlow fd (by omega), hBst fd (by omega)]
      · intro fd hfd
        rw [hhigh fd hfd, hBst fd (by omega)]
      · intro j w hj
        cases j with
        | zero =>
          have hwv : v = w := Option.some.inj (by rw [List.get?_cons_zero] at hj; exact hj)
          refine ⟨f, List.get?_cons_zero, by omega, ?_⟩
          intro e0 he0
          have he0e : e0 = e := by
            rw [← hwv] at he0
            rw [he] at he0
            exact (Option.some.inj he0).symm
          refine ⟨⟨e.res, true⟩, ?_, by rw [he0e]⟩
          rw [hlow f (by omega)]
          exact hBf
        | succ j =>
          obtain ⟨v2, h1, h2, h3⟩ := hget j w hj
          refine ⟨v2, h1, by omega, ?_⟩
          intro e0 he0
          have hwf : w ≠ f := by
            have := hv w (List.mem_cons_of_mem v (List.get?_mem hj))
            omega
          exact h3 e0 (by rw [hBst w hwf]; exact he0)

theorem childFdShuffle_spec (st : FdState) (sources : List Nat) (syncfd : Nat)
    (hopen : ∀ s, s ∈ sources → (st s).isSome = true)
    (hsync : (st syncfd).isSome = true)
    (hnot : syncfd ∉ sources) :
    ∃ st3, childFdShuffle st sources syncfd = some (st3, maxFd sources + 1) ∧
      (∀ j v e, sources.get? j = some v → st v = some e →
        st3 j = some ⟨e.res, false⟩) ∧
      (∀ fd, maxFd sources + 2 + sources.length ≤ fd → fd ≠ syncfd →
        st3 fd = st fd) := by
  obtain ⟨es, hes⟩ := Option.isSome_iff_exists.mp hsync
  obtain ⟨st1, hrel, _hrelEntry, _hrelClosed, hrelFrame⟩ :=
    syncRelocatePhase_spec st sources syncfd es hes
  have hsrc1 : ∀ v, v ∈ sources → st1 v = st v := by
    intro v hv
    refine hrelFrame v (fun h => hnot (h ▸ hv)) ?_
    have := le_maxFd hv
    omega
  obtain ⟨st2, table2, f2, hlift, hlen, hf2lo, hf2hi, hliftLow, hliftHigh, hliftGet⟩ :=
    liftLoop_spec sources st1 0 (maxFd sources + 2) (maxFd sources)
      (fun v hv => le_maxFd hv)
      (fun v hv => by rw [hsrc1 v hv]; exact hopen v hv)
      (le_refl _) (by omega)
  have hpos : ∀ j v, table2.get? j = some v → 0 + j ≤ v := by
    intro j v hjv
    have hj : j < sources.length := by rw [← hlen]; exact get?_some_lt hjv
    obtain ⟨w, hw⟩ := lt_get?_some hj
    obtain ⟨v2, hv2, hle2, _⟩ := hliftGet j w hw
    rw [hjv] at hv2
    rw [Option.some.inj hv2]
    exact hle2
  have hopen2 : ∀ j v, table2.get? j = some v → (st2 v).isSome = true := by
    intro j v hjv
    have hj : j < sources.length := by rw [← hlen]; exact get?_some_lt hjv
    obtain ⟨w, hw⟩ := lt_get?_some hj
    obtain ⟨v2, hv2, _, hres⟩ := hliftGet j w hw
    rw [hjv] at hv2
    obtain ⟨ew, hew⟩ := Option.isSome_iff_exists.mp
      (by rw [hsrc1 w (List.get?_mem hw)]; exact hopen w (List.get?_mem hw) :
        (st1 w).isSome = true)
    obtain ⟨e2, he2, _⟩ := hres ew hew
    rw [Option.some.inj hv2, he2]
    rfl
  obtain ⟨st3, hplace, _hplLow, hplHigh, hplTgt⟩ :=
    placeLoop_spec table2 st2 0 hpos hopen2
  refine ⟨st3, ?_, ?_, ?_⟩
  · unfold childFdShuffle
    rw [hrel]
    show (liftLoop st1 sources 0 (maxFd sources + 2)).bind _ = _
    rw [hlift]
    show (placeLoop st2 table2 0).map _ = _
    rw [hplace]
    rfl
  · intro j v e hjv hv
    have hmem : v ∈ sources := List.get?_mem hjv
    obtain ⟨v2, hv2, _, hres⟩ := hliftGet j v hjv
    obtain ⟨e2, he2, he2res⟩ := hres e (by rw [hsrc1 v hmem]; exact hv)
    have := hplTgt j v2 e2 hv2 he2
    rw [show (0 : Nat) + j = j from by omega] at this
    rw [this, he2res]
  · intro fd hfd hsy
    have h1 : st3 fd = st2 fd := by
      refine hplHigh fd ?_
      rw [hlen]
      omega
    have h2 : st2 fd = st1 fd := hliftHigh fd (by omega)
    have h3 : st1 fd = st fd := hrelFrame fd hsy (by omega)
    rw [h1, h2, h3]

/-! Claim theorems. -/

/-- Claim C1: for every descriptor request list whose target positions
are 0..N-1 and whose source values are arbitrary open descriptors
(including values already equal to their target position, values in
0..N-1 belonging to a different target, and repeated values), after the
child-side renumbering phase completes, descriptor i refers to the
resource the source at position i referred to before the shuffle (with
close-on-exec cleared), and every open descriptor at or above N is
marked close-on-exec.  Hypotheses: the sources and the sync descriptor
are open, the freshly created sync pipe descriptor is not itself listed
as a source, open descriptors lie within the RLIMIT_NOFILE soft limit,
and the limit leaves room for the shuffle, as in the running process. -/
theorem child_renumber_correct
    (st : FdState) (sources : List Nat) (syncfd rlimCur : Nat)
    (hopen : ∀ s, s ∈ sources → (st s).isSome = true)
    (hsync : (st syncfd).isSome = true)
    (hnot : syncfd ∉ sources)
    (hbound : ∀ fd, (st fd).isSome = true → fd ≤ rlimCur)
    (hcap : maxFd sources + 1 + sources.length ≤ rlimCur) :
    ∃ stf sfd, childFdFinal st sources syncfd rlimCur = some (stf, sfd) ∧
      (∀ j v e, sources.get? j = some v → st v = some e →
        stf j = some ⟨e.res, false⟩) ∧
      (∀ fd e, sources.length ≤ fd → stf fd = some e → e.cloexec = true) := by
  obtain ⟨st3, hsh, htgt, hframe⟩ :=
    childFdShuffle_spec st sources syncfd hopen hsync hnot
  refine ⟨cloexecFromCount st3 sources.length (rlimCur + 1 - sources.length),
    maxFd sources + 1, ?_, ?_, ?_⟩
  · unfold childFdFinal
    rw [hsh]
    rfl
  · intro j v e hjv hv
    have hjN : j < sources.length := get?_some_lt hjv
    rw [cloexecFromCount_lt (rlimCur + 1 - sources.length) st3 sources.length j hjN]
    exact htgt j v e hjv hv
  · intro fd e hfd hsome
    by_cases hle : fd ≤ rlimCur
    · exact cloexecFromCount_cloexec (rlimCur + 1 - sources.length) st3
        sources.length fd e hfd (by omega) hsome
    · exfalso
      have hsyncle : syncfd ≤ rlimCur := hbound syncfd hsync
      rw [cloexecFromCount_ge (rlimCur + 1 - sources.length) st3
        sources.length fd (by omega)] at hsome
      rw [hframe fd (by omega) (by omega)] at hsome
      have : fd ≤ rlimCur := hbound fd (by rw [hsome]; rfl)
      omega

/-- Witness for C1 at a concrete input: sources [2, 0, 0] (repeated
values, a low value belonging to the wrong target), sync descriptor 5,
limit 10, on the table stW1. -/
theorem child_renumber_correct_witness :
    (∀ s, s ∈ ([2, 0, 0] : List Nat) → (stW1 s).isSome = true) ∧
    (stW1 5).isSome = true ∧
    5 ∉ ([2, 0, 0] : List Nat) ∧
    (∀ fd, (stW1 fd).isSome = true → fd ≤ 10) ∧
    maxFd [2, 0, 0] + 1 + ([2, 0, 0] : List Nat).length ≤ 10 ∧
    (∃ stf sfd, childFdFinal stW1 [2, 0, 0] 5 10 = some (stf, sfd) ∧
      (∀ j v e, ([2, 0, 0] : List Nat).get? j = some v → stW1 v = some e →
        stf j = some ⟨e.res, false⟩) ∧
      (∀ fd e, ([2, 0, 0] : List Nat).length ≤ fd → stf fd = some e →
        e.cloexec = true)) := by
  have hbd : ∀ fd, (stW1 fd).isSome = true → fd ≤ 10 := by
    intro fd h
    by_cases h0 : fd = 0
    · omega
    by_cases h2 : fd = 2
    · omega
    by_cases h5 : fd = 5
    · omega
    · exfalso
      simp [stW1, h0, h2, h5] at h
  exact ⟨by decide, by decide, by decide, hbd, by decide,
    child_renumber_correct stW1 [2, 0, 0] 5 10 (by decide) (by decide)
      (by decide) hbd (by decide)⟩

/-- Claim C3 is false as stated: with an empty request list and the sync
descriptor at 5, the relocation dup2-s the sync descriptor onto
descriptor 1, silently closing and overwriting the previously open
descriptor 1 (resource 10 is replaced by pipe resource 99), so a
previously open descriptor other than the sync descriptor is not left
unaffected by the relocation. -/
theorem childFdShuffle_nil_counterexample :
    stW3 1 = some ⟨10, false⟩ ∧
    (childFdShuffle stW3 [] 5).map (fun p => p.2) = some 1 ∧
    (childFdShuffle stW3 [] 5).map (fun p => p.1 1) = some (some ⟨99, true⟩) ∧
    ¬((childFdShuffle stW3 [] 5).map (fun p => p.1 1) = some (stW3 1)) := by
  decide

/-- Claim C3 (amended): with a request list of length 0 the child still
relocates the sync descriptor, to descriptor 1 (one plus the maximum 0
of the empty list), and marks it close-on-exec; every descriptor other
than descriptor 1 and the original sync descriptor is unaffected by the
relocation, but the original sync descriptor is closed and whatever was
previously open at descriptor 1 is overwritten whenever the sync
descriptor was not already 1. -/
theorem childFdShuffle_nil_spec (st : FdState) (syncfd : Nat) (e : Entry)
    (hsync : st syncfd = some e) :
    ∃ st2, childFdShuffle st [] syncfd = some (st2, 1) ∧
      st2 1 = some ⟨e.res, true⟩ ∧
      (syncfd ≠ 1 → st2 syncfd = none) ∧
      (∀ fd, fd ≠ 1 → fd ≠ syncfd → st2 fd = st fd) := by
  obtain ⟨st2, hrel, hentry, hclosed, hframe⟩ :=
    syncRelocatePhase_spec st [] syncfd e hsync
  refine ⟨st2, ?_, hentry, fun h => hclosed h, fun fd h1 h2 => hframe fd h2 h1⟩
  unfold childFdShuffle
  rw [hrel]
  rfl

/-- Witness for the amended C3 at the concrete table stW3 with the sync
descriptor at 5. -/
theorem childFdShuffle_nil_spec_witness :
    stW3 5 = some ⟨99, false⟩ ∧
    (∃ st2, childFdShuffle stW3 [] 5 = some (st2, 1) ∧
      st2 1 = some ⟨99, true⟩ ∧
      ((5 : Nat) ≠ 1 → st2 5 = none) ∧
      (∀ fd, fd ≠ 1 → fd ≠ 5 → st2 fd = stW3 fd)) :=
  ⟨by decide, childFdShuffle_nil_spec stW3 5 ⟨99, false⟩ (by decide)⟩

/-- Claim C8 is false as stated: with the single source 3 the relocation
target is max+1 = 4; the sync descriptor 10 is already beyond that
value, yet the code does not skip the relocation: it moves the sync
descriptor down to 4 and closes descriptor 10. -/
theorem syncRelocate_counterexample :
    maxFd [3] + 1 = 4 ∧
    (syncRelocatePhase stW8 [3] 10).map (fun p => p.2) = some 4 ∧
    ¬((syncRelocatePhase stW8 [3] 10).map (fun p => p.2) = some 10) ∧
    (syncRelocatePhase stW8 [3] 10).map (fun p => p.1 10) = some none := by
  decide

/-- Claim C8 (amended): the sync descriptor is relocated to one plus the
maximum of all source values via duplicate-then-close-original, the
relocation being skipped exactly when the sync descriptor already equals
that value (a sync descriptor strictly beyond it is relocated downward
onto it), and the resulting sync descriptor is marked close-on-exec;
no other descriptor is touched by this phase. -/
theorem syncRelocate_correct (st : FdState) (sources : List Nat) (syncfd : Nat)
    (e : Entry) (hsync : st syncfd = some e) :
    ∃ st2, syncRelocatePhase st sources syncfd = some (st2, maxFd sources + 1) ∧
      st2 (maxFd sources + 1) = some ⟨e.res, true⟩ ∧
      (syncfd ≠ maxFd sources + 1 → st2 syncfd = none) ∧
      (∀ fd, fd ≠ syncfd → fd ≠ maxFd sources + 1 → st2 fd = st fd) :=
  syncRelocatePhase_spec st sources syncfd e hsync

/-- Witness for the amended C8 at the concrete table stW8, sources [3],
sync descriptor 10. -/
theorem syncRelocate_correct_witness :
    stW8 10 = some ⟨110, false⟩ ∧
    (∃ st2, syncRelocatePhase stW8 [3] 10 = some (st2, maxFd [3] + 1) ∧
      st2 (maxFd [3] + 1) = some ⟨110, true⟩ ∧
      ((10 : Nat) ≠ maxFd [3] + 1 → st2 10 = none) ∧
      (∀ fd, fd ≠ 10 → fd ≠ maxFd [3] + 1 → st2 fd = stW8 fd)) :=
  ⟨by decide, syncRelocate_correct stW8 [3] 10 ⟨110, false⟩ (by decide)⟩

/-- Claim C7 is false as stated: exec_command_attrs_init sets the
process group id field and the controlling terminal field to 0, not to
-1, so not every numeric id field is initialized to -1. -/
theorem attrs_init_not_all_minus_one :
    exec_command_attrs_init.pgid = 0 ∧
    ¬(exec_command_attrs_init.pgid = -1) ∧
    exec_command_attrs_init.ctty = 0 ∧
    ¬(exec_command_attrs_init.ctty = -1) := by
  decide

/-- Claim C7 (amended): exec_command_attrs_init sets the three boolean
flags (setpgid, setsid, setctty) to 0, the user id and group id to -1,
and the process group id, controlling terminal descriptor and mask to 0. -/
theorem attrs_init_defaults :
    exec_command_attrs_init.setpgid = 0 ∧
    exec_command_attrs_init.setsid = 0 ∧
    exec_command_attrs_init.setctty = 0 ∧
    exec_command_attrs_init.uid = -1 ∧
    exec_command_attrs_init.gid = -1 ∧
    exec_command_attrs_init.pgid = 0 ∧
    exec_command_attrs_init.ctty = 0 ∧
    exec_command_attrs_init.mask = 0 := by
  decide

/-- Claim C9: in the child the blocked signal mask is always reset to
the empty set, whatever the attributes mask field says, and changing the
mask field does not change the child-side signal setup at all: the field
is carried in the attribute record but never applied. -/
theorem child_mask_reset (attrs : exec_command_attrs) (s : ChildSigState)
    (m : Int) (sig : Nat) :
    (childSignalPhase attrs s).blockedMask sig = false ∧
    childSignalPhase attrs s = childSignalPhase (setMaskField attrs m) s :=
  ⟨rfl, rfl⟩

theorem writeRetry_nonneg :
    ∀ (trace : List Int) (r : Int), writeRetry trace = some r → 0 ≤ r := by
  intro trace
  induction trace with
  | nil => intro r h; cases h
  | cons x rest ih =>
    intro r h
    simp only [writeRetry] at h
    split_ifs at h with hx
    · exact ih r h
    · rw [← Option.some.inj h]
      omega

/-- Claim C6 is false as stated: the write loop at lines 245-246 exits
on any non-negative return value, so a short write of 2 of the 4 bytes
(descriptor still valid) ends the retry without full success; and with a
persistently failing descriptor (write keeps returning -1, as for an
invalid descriptor) the handler is still looping after any number of
attempts instead of terminating. -/
theorem childFail_counterexample :
    writeRetry [2] = some 2 ∧ ¬((2 : Int) = 4) ∧
    childFailHandler true 9 [-1, -1, -1] = none := by
  decide

/-- Claim C6 (amended): the failure handler releases the transient
allocation exactly when one was made, captures errno, and when errno is
nonzero writes its 4 bytes to the sync descriptor, retrying while the
write returns a negative value; the retry stops at the first
non-negative return (even a short one), the handler never terminates
while the write keeps failing, and on termination the child exits with
status 127. -/
theorem childFail_spec (alloc : Bool) (errno : Int) (trace : List Int) :
    (errno = 0 → childFailHandler alloc errno trace = some ⟨alloc, none, 127⟩) ∧
    (¬(errno = 0) → ∀ r, writeRetry trace = some r →
      0 ≤ r ∧ childFailHandler alloc errno trace = some ⟨alloc, some errno, 127⟩) ∧
    (¬(errno = 0) → writeRetry trace = none →
      childFailHandler alloc errno trace = none) := by
  refine ⟨?_, ?_, ?_⟩
  · intro h
    simp [childFailHandler, h]
  · intro h r hr
    exact ⟨writeRetry_nonneg trace r hr, by simp [childFailHandler, h, hr]⟩
  · intro h hr
    simp [childFailHandler, h, hr]

/-- Witness for the amended C6: errno 9, one failing write then a
successful one. -/
theorem childFail_spec_witness :
    ¬((9 : Int) = 0) ∧ writeRetry [-1, 2] = some 2 ∧ (0 : Int) ≤ 2 ∧
    childFailHandler true 9 [-1, 2] = some ⟨true, some 9, 127⟩ :=
  ⟨by decide, by decide,
    ((childFail_spec true 9 [-1, 2]).2.1 (by decide) 2 (by decide)).1,
    ((childFail_spec true 9 [-1, 2]).2.1 (by decide) 2 (by decide)).2⟩

/-- Claim C2 is contradicted by the code (code bug): when pipe(2) or
fork(2) fails, exec_command jumps to its fail label with err still 0
(err is never assigned errno on those paths), so it returns 0 (success)
and leaves the result out-parameter unassigned instead of returning an
error; in the fork case both pipe ends are indeed closed first, as the
claim also says. -/
theorem exec_command_failure_not_reported :
    (exec_command oPipeFail maskNone maskGarbage).ret = 0 ∧
    (exec_command oPipeFail maskNone maskGarbage).resultOut = none ∧
    (exec_command oForkFail maskNone maskGarbage).ret = 0 ∧
    ¬((exec_command oForkFail maskNone maskGarbage).ret = -1) ∧
    (exec_command oForkFail maskNone maskGarbage).resultOut = none ∧
    (exec_command oForkFail maskNone maskGarbage).readEndClosed = true ∧
    (exec_command oForkFail maskNone maskGarbage).writeEndClosed = true := by
  decide

/-- Claim C4 is contradicted by the code (code bug): when pipe(2) fails,
control jumps to the fail label before old_mask was ever written, and
the unconditional pthread_sigmask restore there installs the
indeterminate stack contents of old_mask (modelled by maskGarbage), so
the mask after the call differs from the mask before it (here at signal
0).  On the paths where the save at line 267 did run, the model restores
the saved mask. -/
theorem exec_command_mask_clobbered :
    (exec_command oPipeFail maskNone maskGarbage).finalMask 0 = true ∧
    maskNone 0 = false ∧
    ¬((exec_command oPipeFail maskNone maskGarbage).finalMask 0 = maskNone 0) := by
  decide

/-- Claim C5: in the parent after a successful fork (with the setup
calls and the two close calls succeeding), a read of fewer than 4 bytes
makes exec_command store the positive child pid in the out-parameter and
return 0 without calling waitpid, while a full 4-byte read of a nonzero
code v makes it call the blocking waitpid and return -1 carrying v.  The
nonzero hypothesis reflects the child handler, which only ever writes a
nonzero errno. -/
theorem exec_command_read_protocol (o : Oracle) (im g : SigMask) (pid : Nat)
    (hpipe : o.pipeOk = true) (hsave : o.sigmaskSaveOk = true)
    (hfork : o.forkPid = some pid) (hpid : 0 < pid)
    (hcw : o.closeWriteOk = true) (hcr : o.closeReadOk = true) :
    (o.readOutcome = .notFull →
      (exec_command o im g).ret = 0 ∧
      (exec_command o im g).resultOut = some pid ∧ 0 < pid ∧
      (exec_command o im g).reaped = false) ∧
    (∀ v, o.readOutcome = .full v → ¬(v = 0) →
      (exec_command o im g).ret = -1 ∧
      (exec_command o im g).reaped = true ∧
      (exec_command o im g).errCarried = v) := by
  obtain ⟨pk, sk, fk, cw, cr, ro⟩ := o
  simp only at hpipe hsave hfork hcw hcr
  subst hpipe hsave hfork hcw hcr
  constructor
  · intro hro
    simp only at hro
    subst hro
    exact ⟨rfl, rfl, hpid, rfl⟩
  · intro v hro hv
    simp only at hro
    subst hro
    refine ⟨?_, ?_, ?_⟩ <;> simp [exec_command, hv]

/-- Witness for C5 at a concrete oracle: everything succeeds and the
parent sees EOF on the pipe. -/
theorem exec_command_read_protocol_witness :
    oSpawnOk.pipeOk = true ∧ oSpawnOk.forkPid = some 7 ∧ (0 : Nat) < 7 ∧
    (exec_command oSpawnOk maskNone maskGarbage).ret = 0 ∧
    (exec_command oSpawnOk maskNone maskGarbage).resultOut = some 7 ∧
    (exec_command oSpawnOk maskNone maskGarbage).reaped = false :=
  have h := (exec_command_read_protocol oSpawnOk maskNone maskGarbage 7
    rfl rfl rfl (by decide) rfl rfl).1 rfl
  ⟨rfl, rfl, by decide, h.1, h.2.1, h.2.2.2⟩

/-- Claim C10: whenever exec_command returns -1 the out-parameter is
left unassigned, and the out-parameter is assigned only on a path that
returns 0: the assignment at line 314 sits immediately before the fail
label with err = 0, and every goto fail skips it. -/
theorem exec_command_result_assignment (o : Oracle) (im g : SigMask) :
    ((exec_command o im g).ret = -1 → (exec_command o im g).resultOut = none) ∧
    (∀ p, (exec_command o im g).resultOut = some p →
      (exec_command o im g).ret = 0) := by
  obtain ⟨pk, sk, fk, cw, cr, ro⟩ := o
  rcases ro with _ | v
  · cases pk <;> cases sk <;> rcases fk with _ | pid <;> cases cw <;> cases cr <;>
      refine ⟨fun h => ?_, fun p hp => ?_⟩ <;> simp_all [exec_command]
  · by_cases hv : v = 0 <;>
      cases pk <;> cases sk <;> rcases fk with _ | pid <;> cases cw <;> cases cr <;>
        refine ⟨fun h => ?_, fun p hp => ?_⟩ <;> simp_all [exec_command]

/-- Witness for C10 at a concrete oracle on which exec_command returns
-1 (child reported code 9): the out-parameter stays unassigned. -/
theorem exec_command_result_assignment_witness :
    (exec_command oChildErr maskNone maskGarbage).resultOut = none :=
  (exec_command_result_assignment oChildErr maskNone maskGarbage).1 (by decide)
